import Mathlib

/-!
Verification development for the `summary_bot` repository (`src/main.py`).

Texts are modelled as lists of characters (`Str`).  The Python regular
expressions used by the bot are embedded as explicit character-list scanners;
each scanner is named after, and documented with, the regex it implements.
Python `datetime.date` values are modelled by their proleptic Gregorian
ordinal (an `Int`, with ordinal 1 = 0001-01-01), exactly the representation
`date.toordinal` uses.
-/

set_option maxRecDepth 8192

/-- Character-list texts, the shallow embedding of Python strings. -/
abbrev Str := List Char

/-- ASCII whitespace, the characters matched by `\s` and stripped by
`str.strip()` for the ASCII texts this bot handles. -/
def isSpaceChar (c : Char) : Bool :=
  c = ' ' || c = '\t' || c = '\n' || c = '\r' || c = Char.ofNat 11 || c = Char.ofNat 12

/-- Decimal digits, the characters matched by `\d`. -/
def isDigitChar (c : Char) : Bool :=
  '0' ≤ c && c ≤ '9'

/-- Word characters as matched by `\w` (ASCII letters, digits, underscore). -/
def isWordChar (c : Char) : Bool :=
  c.isAlpha || isDigitChar c || c = '_'

/-- Embedding of Python `str.lower()`. -/
def toLowerStr (s : Str) : Str :=
  s.map Char.toLower

/-- Remove trailing whitespace (the right half of `str.strip()`). -/
def dropTrailingWs : Str → Str
  | [] => []
  | c :: cs =>
    match dropTrailingWs cs with
    | [] => if isSpaceChar c then [] else [c]
    | r => c :: r

/-- Embedding of Python `str.strip()`. -/
def stripStr (s : Str) : Str :=
  dropTrailingWs (s.dropWhile isSpaceChar)

/-- Numeric value of a run of decimal digits (`int(...)` on the captured
group; the `replace(",", "")` in the source is a no-op on `\d+` captures). -/
def digitsToNat (s : Str) : Nat :=
  s.foldl (fun n c => 10 * n + (c.toNat - 48)) 0

/-- Match a literal pattern case-insensitively at the head of the text
(`pat` is given in lowercase); returns the remainder on success. -/
def dropLitCI : Str → Str → Option Str
  | [], s => some s
  | _ :: _, [] => none
  | p :: ps, c :: cs => if Char.toLower c = p then dropLitCI ps cs else none

/-- Skip `\s*` (maximal munch; all uses are followed by a non-whitespace
literal or class, where maximal munch agrees with regex backtracking). -/
def skipWs (s : Str) : Str :=
  s.dropWhile isSpaceChar

/-- Embedding of `re.search`: try the matcher at every start position,
leftmost first.  The matcher returns its captures plus the remainder of
the text after the match. -/
def searchPat (m : Str → Option (α × Str)) : Str → Option (α × Str)
  | [] => m []
  | c :: rest =>
    match m (c :: rest) with
    | some r => some r
    | none => searchPat m rest

/-- Capture `(\w+(?:\.\w+)?)`: a word run, optionally followed by a dot and
a second word run. -/
def takeWord (s : Str) : Option (Str × Str) :=
  let w := s.takeWhile isWordChar
  if w.isEmpty then none
  else
    let r := s.dropWhile isWordChar
    match r with
    | '.' :: r2 =>
      let w2 := r2.takeWhile isWordChar
      if w2.isEmpty then some (w, r)
      else some (w ++ '.' :: w2, r2.dropWhile isWordChar)
    | _ => some (w, r)

/-- Match a chain of case-insensitive literals separated by `\s*`, with a
final `\s*` after the last literal (all the `no\.\s*of\s*...` field patterns
have this shape). -/
def dropLabelChain : List Str → Str → Option Str
  | [], s => some s
  | l :: ls, s => (dropLitCI l s).bind fun r => dropLabelChain ls (skipWs r)

/-- Match `<labels with \s* in between>\s*(\d+)` and return the captured
count plus the remainder. -/
def matchCount (labels : List Str) (s : Str) : Option (Nat × Str) :=
  (dropLabelChain labels s).bind fun r =>
    let ds := r.takeWhile isDigitChar
    if ds.isEmpty then none else some (digitsToNat ds, r.dropWhile isDigitChar)

/-- Search for a count field anywhere in the text. -/
def searchCount (labels : List Str) (s : Str) : Option Nat :=
  (searchPat (matchCount labels) s).map (·.1)

/-- Association-list lookup (Python `dict` access / `in`). -/
def lookupA : List (Str × α) → Str → Option α
  | [], _ => none
  | (k, v) :: rest, u => if u = k then some v else lookupA rest u

/-- Python `dict` assignment: replace the value in place when the key is
already present (insertion order is preserved), append otherwise. -/
def insertReplace : List (Str × α) → Str → α → List (Str × α)
  | [], u, v => [(u, v)]
  | (k, w) :: rest, u, v =>
    if k = u then (k, v) :: rest else (k, w) :: insertReplace rest u v

/-- Embedding of `"\n".join(...)`. -/
def joinNL (parts : List Str) : Str :=
  List.intercalate ['\n'] parts

/-- Worker for `re.split(r"-{5,}", text)`: `cur` is the current section
(reversed), `run` counts the dash run just read, `acc` the finished
sections.  A maximal run of five or more dashes separates sections; shorter
runs stay in the section text. -/
def splitDashes (cur : Str) (run : Nat) (acc : List Str) : Str → List Str
  | [] =>
    if 5 ≤ run then acc ++ [cur.reverse, []]
    else acc ++ [List.replicate run '-' ++ cur |>.reverse]
  | c :: rest =>
    if c = '-' then splitDashes cur (run + 1) acc rest
    else if 5 ≤ run then splitDashes [c] 0 (acc ++ [cur.reverse]) rest
    else splitDashes (c :: (List.replicate run '-' ++ cur)) 0 acc rest

/-- Section list of a final-update text (`re.split(r"-{5,}", text)`). -/
def dashSections (text : Str) : List Str :=
  splitDashes [] 0 [] text

/-- Leap-year test of Python `datetime` (`_is_leap`). -/
def isLeapYear (y : Int) : Bool :=
  y.emod 4 = 0 && (y.emod 100 ≠ 0 || y.emod 400 = 0)

/-- Table `_DAYS_IN_MONTH` of Python `datetime` (non-leap month lengths). -/
def daysInMonthTable (m : Int) : Int :=
  if m = 1 then 31 else if m = 2 then 28 else if m = 3 then 31
  else if m = 4 then 30 else if m = 5 then 31 else if m = 6 then 30
  else if m = 7 then 31 else if m = 8 then 31 else if m = 9 then 30
  else if m = 10 then 31 else if m = 11 then 30 else if m = 12 then 31
  else -1

/-- Month length with the February leap adjustment (`_days_in_month`). -/
def daysInMonth (y m : Int) : Int :=
  if m = 2 && isLeapYear y then 29 else daysInMonthTable m

/-- Table `_DAYS_BEFORE_MONTH` of Python `datetime`. -/
def daysBeforeMonthTable (m : Int) : Int :=
  if m = 1 then 0 else if m = 2 then 31 else if m = 3 then 59
  else if m = 4 then 90 else if m = 5 then 120 else if m = 6 then 151
  else if m = 7 then 181 else if m = 8 then 212 else if m = 9 then 243
  else if m = 10 then 273 else if m = 11 then 304 else if m = 12 then 334
  else -1

/-- Days before January 1 of year `y` (`_days_before_year`). -/
def daysBeforeYear (y : Int) : Int :=
  365 * (y - 1) + (y - 1).fdiv 4 - (y - 1).fdiv 100 + (y - 1).fdiv 400

/-- Days in year `y` before month `m` (`_days_before_month`). -/
def daysBeforeMonth (y m : Int) : Int :=
  daysBeforeMonthTable m + if 2 < m && isLeapYear y then 1 else 0

/-- Proleptic Gregorian ordinal of a date (`date.toordinal`;
ordinal 1 = 0001-01-01). -/
def toOrdinal (y m d : Int) : Int :=
  daysBeforeYear y + daysBeforeMonth y m + d

/-- Calendar validity as checked by the `datetime.date` constructor
(`ValueError` on failure), including the `MINYEAR`/`MAXYEAR` bounds. -/
def validDate (y m d : Int) : Bool :=
  1 ≤ y && y ≤ 9999 && 1 ≤ m && m ≤ 12 && 1 ≤ d && d ≤ daysInMonth y m

/-- Ordinal to `(year, month, day)`, the `_ord2ymd` algorithm of Python
`datetime` (`divmod` is floor division/remainder, hence `fdiv`/`fmod`). -/
def fromOrdinal (ordinal : Int) : Int × Int × Int :=
  let n0 := ordinal - 1
  let n400 := n0.fdiv 146097
  let r400 := n0.fmod 146097
  let n100 := r400.fdiv 36524
  let r100 := r400.fmod 36524
  let n4 := r100.fdiv 1461
  let r4 := r100.fmod 1461
  let n1 := r4.fdiv 365
  let n := r4.fmod 365
  let year := n400 * 400 + 1 + n100 * 100 + n4 * 4 + n1
  if n1 = 4 || n100 = 4 then (year - 1, 12, 31)
  else
    let leap := n1 = 3 && (n4 ≠ 24 || n100 = 3)
    let month := (n + 50).fdiv 32
    let preceding := daysBeforeMonthTable month + if 2 < month && leap then 1 else 0
    let month2 := if preceding > n then month - 1 else month
    let preceding2 :=
      if preceding > n then
        preceding - (daysInMonthTable month2 + if month2 = 2 && leap then 1 else 0)
      else preceding
    (year, month2, n - preceding2 + 1)

/-- Zero-padded decimal rendering of a (non-negative) field, as `strftime`
produces for `%Y`, `%m`, `%d`. -/
def padInt (w : Nat) (v : Int) : Str :=
  let s := (Nat.repr v.toNat).data
  List.replicate (w - s.length) '0' ++ s

/-- Embedding of `date.strftime("%Y-%m-%d")` on an ordinal. -/
def formatOrdinal (ordinal : Int) : Str :=
  let ymd := fromOrdinal ordinal
  padInt 4 ymd.1 ++ '-' :: padInt 2 ymd.2.1 ++ '-' :: padInt 2 ymd.2.2

/-- Python `date.weekday()` on an ordinal (Monday = 0; ordinal 1,
0001-01-01, is a Monday). -/
def pyWeekday (ordinal : Int) : Int :=
  (ordinal + 6).emod 7

/-- Table `day_names` of `parse_day_argument` (`main.py`), mapping weekday
tokens to Python weekday numbers (Monday = 0). -/
def day_names : List (Str × Nat) :=
  [("monday".data, 0), ("mon".data, 0), ("tuesday".data, 1), ("tue".data, 1),
   ("tues".data, 1), ("wednesday".data, 2), ("wed".data, 2), ("thursday".data, 3),
   ("thu".data, 3), ("thur".data, 3), ("thurs".data, 3), ("friday".data, 4),
   ("fri".data, 4), ("saturday".data, 5), ("sat".data, 5), ("sunday".data, 6),
   ("sun".data, 6)]

/-- Table `month_names` of `parse_day_argument` (`main.py`). -/
def month_names : List (Str × Int) :=
  [("jan".data, 1), ("january".data, 1), ("feb".data, 2), ("february".data, 2),
   ("mar".data, 3), ("march".data, 3), ("apr".data, 4), ("april".data, 4),
   ("may".data, 5), ("jun".data, 6), ("june".data, 6), ("jul".data, 7),
   ("july".data, 7), ("aug".data, 8), ("august".data, 8), ("sep".data, 9),
   ("sept".data, 9), ("september".data, 9), ("oct".data, 10), ("october".data, 10),
   ("nov".data, 11), ("november".data, 11), ("dec".data, 12), ("december".data, 12)]

/-- Weekday branch of `parse_day_argument`: `days_ago = (current - target) % 7`,
replaced by 7 when zero, and the result is `today - days_ago`. -/
def weekdayResolve (today : Int) (target : Nat) : Int :=
  let daysAgo0 := (pyWeekday today - (target : Int)).emod 7
  let daysAgo := if daysAgo0 = 0 then 7 else daysAgo0
  today - daysAgo

/-- Integer value of one digit character. -/
def dval (c : Char) : Int :=
  ((c.toNat : Int) - 48)

/-- Embedding of `re.match(r"(\w+)\s+(\d{1,2})", s)`: an anchored word run,
at least one whitespace, then one or two digits (greedy, no end anchor). -/
def matchMonthDayTok (s : Str) : Option (Str × Int) :=
  let w := s.takeWhile isWordChar
  if w.isEmpty then none
  else
    let r := s.dropWhile isWordChar
    match r with
    | c :: r2 =>
      if isSpaceChar c then
        match skipWs r2 with
        | d1 :: rest =>
          if isDigitChar d1 then
            match rest with
            | d2 :: _ =>
              if isDigitChar d2 then some (w, dval d1 * 10 + dval d2)
              else some (w, dval d1)
            | [] => some (w, dval d1)
          else none
        | [] => none
      else none
    | [] => none

/-- Tail of `re.match(r"\d{4}-\d{1,2}-\d{1,2}", s)` after the leading
`\d{4}-`: one or two digits, a dash, then at least one digit (with the
backtracking of the greedy `\d{1,2}` made explicit as a disjunction). -/
def isoTailMatch (r : Str) : Bool :=
  (match r with
   | x :: y :: '-' :: z :: _ => isDigitChar x && isDigitChar y && isDigitChar z
   | _ => false) ||
  (match r with
   | x :: '-' :: z :: _ => isDigitChar x && isDigitChar z
   | _ => false)

/-- Embedding of `re.match(r"\d{4}-\d{1,2}-\d{1,2}", s)` as a Boolean
(anchored prefix match, no end anchor, no calendar validation). -/
def isoPrefixMatch : Str → Bool
  | a :: b :: c :: d :: e :: rest =>
    isDigitChar a && isDigitChar b && isDigitChar c && isDigitChar d && e = '-'
      && isoTailMatch rest
  | _ => false

/-- Second capture of `re.match(r"(\d{1,2})<sep>(\d{1,2})" (with <sep> the slash-or-dash class), s)`: one or two
digits (greedy). -/
def shortSecondGroup (m : Int) (r : Str) : Option (Int × Int) :=
  match r with
  | c :: rest =>
    if isDigitChar c then
      match rest with
      | c2 :: _ =>
        if isDigitChar c2 then some (m, dval c * 10 + dval c2)
        else some (m, dval c)
      | [] => some (m, dval c)
    else none
  | [] => none

/-- Separator class of the short date pattern: slash or dash. -/
def isSepChar (c : Char) : Bool :=
  c = '/' || c = '-'

/-- Embedding of `re.match(r"(\d{1,2})<sep>(\d{1,2})" (with <sep> the slash-or-dash class), s)` (anchored, greedy
first group with explicit backtracking to one digit). -/
def shortPrefixMatch (s : Str) : Option (Int × Int) :=
  match s with
  | a :: rest =>
    if isDigitChar a then
      let try2 :=
        match rest with
        | b :: sep :: r2 =>
          if isDigitChar b && isSepChar sep then shortSecondGroup (dval a * 10 + dval b) r2
          else none
        | _ => none
      match try2 with
      | some x => some x
      | none =>
        match rest with
        | sep :: r2 => if isSepChar sep then shortSecondGroup (dval a) r2 else none
        | _ => none
    else none
  | [] => none

/-- Month/day resolution shared by the month-name and `MM/DD` branches of
`parse_day_argument`: build the date in the current year (failure on an
invalid calendar date), roll back one year when the result lies in the
future (failure when the rolled-back date is invalid, e.g. Feb 29). -/
def monthDayResolve (today m d : Int) : Option Str :=
  let y := (fromOrdinal today).1
  if validDate y m d then
    let t := toOrdinal y m d
    if t > today then
      if validDate (y - 1) m d then some (formatOrdinal (toOrdinal (y - 1) m d))
      else none
    else some (formatOrdinal t)
  else none

/-- Final two branches of `parse_day_argument` (ISO pass-through and
`MM/DD` / `MM-DD`), which operate on the original, unlowered argument. -/
def isoShortBranch (today : Int) (day_arg : Str) : Option Str :=
  if isoPrefixMatch day_arg then some day_arg
  else
    match shortPrefixMatch day_arg with
    | some md => monthDayResolve today md.1 md.2
    | none => none

/-- Body of `parse_day_argument` after computing
`day_arg_lower = day_arg.lower().strip()`. -/
def parseDayCore (today : Int) (dl day_arg : Str) : Option Str :=
  if dl = "today".data then some (formatOrdinal today)
  else if dl = "yesterday".data then some (formatOrdinal (today - 1))
  else
    match lookupA day_names dl with
    | some target => some (formatOrdinal (weekdayResolve today target))
    | none =>
      match matchMonthDayTok dl with
      | some md =>
        match lookupA month_names md.1 with
        | some m => monthDayResolve today m md.2
        | none => isoShortBranch today day_arg
      | none => isoShortBranch today day_arg

/-- Embedding of `parse_day_argument` (`main.py`).  The Python function
reads the current date from the configured timezone; here the current date
is the explicit `today` ordinal, and the result is the `YYYY-MM-DD` string
(`None` becomes `none`). -/
def parse_day_argument (today : Int) (day_arg : Str) : Option Str :=
  parseDayCore today (stripStr (toLowerStr day_arg)) day_arg

/-- Prefix test (case-sensitive), helper for the Python `in` operator. -/
def startsWithStr : Str → Str → Bool
  | [], _ => true
  | _ :: _, [] => false
  | p :: ps, c :: cs => p = c && startsWithStr ps cs

/-- Embedding of the Python substring operator `pat in text`
(case-sensitive; the source always applies it to lowered text). -/
def containsStr (pat : Str) : Str → Bool
  | [] => startsWithStr pat []
  | c :: rest => startsWithStr pat (c :: rest) || containsStr pat rest

/-- Capture of `(\d{4}-\d{2}-\d{2})`: exactly 4, 2 and 2 digits separated
by dashes. -/
def matchDate10 : Str → Option (Str × Str)
  | a :: b :: c :: d :: '-' :: e :: f :: '-' :: g :: h :: rest =>
    if [a, b, c, d, e, f, g, h].all isDigitChar then
      some ([a, b, c, d, '-', e, f, '-', g, h], rest)
    else none
  | _ => none

/-- Matcher for `start\s*time:\s*(\d{4}-\d{2}-\d{2})` (and the `end time`
variant) at one position. -/
def matchTimeDate (label : Str) (s : Str) : Option (Str × Str) :=
  (dropLabelChain [label, "time:".data] s).bind matchDate10

/-- Embedding of `_extract_run_date_from_text` (`main.py`): prefer the
`Start Time` date, fall back to the `End Time` date. -/
def extract_run_date (text : Str) : Option Str :=
  match searchPat (matchTimeDate "start".data) text with
  | some r => some r.1
  | none => (searchPat (matchTimeDate "end".data) text).map (·.1)

/-- Matcher for `<label>\s*(\w+(?:\.\w+)?)` at one position (the username
field patterns `account username:` and `account:`). -/
def matchUserField (label : Str) (s : Str) : Option (Str × Str) :=
  (dropLitCI label s).bind fun r => takeWord (skipWs r)

/-- Search `<label>\s*(\w+(?:\.\w+)?)` anywhere in the text and return the
captured username. -/
def searchUser (label : Str) (s : Str) : Option Str :=
  (searchPat (matchUserField label) s).map (·.1)

/-- Matcher for `device name:\s*(.+?)(?:\n|$)` at one position, with the
capture already stripped.  When everything after the colon is whitespace,
the lazy capture can still take a single non-newline whitespace character
(stripping to the empty name), mirroring the regex backtracking. -/
def matchDeviceName (s : Str) : Option (Str × Str) :=
  (dropLitCI "device name:".data s).bind fun r =>
    let r2 := skipWs r
    match r2 with
    | [] =>
      if r.any (fun c => isSpaceChar c && c ≠ '\n') then some ([], []) else none
    | _ :: _ =>
      some (stripStr (r2.takeWhile (· ≠ '\n')), r2.dropWhile (· ≠ '\n'))

/-- Stoplist of `parse_schedule_for_date` (`main.py` line 532). -/
def schedule_stoplist : List Str :=
  ["type".data, "method".data, "automation".data, "stats".data,
   "device".data, "notification".data]

/-- Stoplist of `parse_final_update` (`main.py` line 601). -/
def final_update_stoplist : List Str :=
  ["type".data, "method".data, "automation".data, "stats".data,
   "device".data, "name".data, "notification".data]

/-- Membership in a list of strings (Python `in` on a list literal). -/
def memStr : List Str → Str → Bool
  | [], _ => false
  | k :: rest, u => u = k || memStr rest u

/-- Skip test of the schedule parser: `username.lower() in [...]`. -/
def schedSkip (u : Str) : Bool :=
  memStr schedule_stoplist (toLowerStr u)

/-- Skip test of the final-update parser: `username.lower() in [...]`. -/
def fuSkip (u : Str) : Bool :=
  memStr final_update_stoplist (toLowerStr u)

/-- Per-account values parsed from a final-update section:
`(follows, requests, is_blocked, is_unfollow_run)`. -/
abbrev FUVal := Nat × Nat × Bool × Bool

/-- Matcher for `no\.\s*of\s*follow\s*requests[^0-9]*(\d+)` at one
position (the loose fallback for request counts). -/
def matchReqFallback (s : Str) : Option (Nat × Str) :=
  (dropLabelChain ["no.".data, "of".data, "follow".data, "requests".data] s).bind fun r =>
    let r2 := r.dropWhile (fun c => !isDigitChar c)
    match r2 with
    | [] => none
    | _ :: _ => some (digitsToNat (r2.takeWhile isDigitChar), r2.dropWhile isDigitChar)

/-- Matcher for `account actions blocked:\s*(true|false)` at one position. -/
def matchBlocked (s : Str) : Option (Bool × Str) :=
  (dropLitCI "account actions blocked:".data s).bind fun r =>
    let r2 := skipWs r
    match dropLitCI "true".data r2 with
    | some rest => some (true, rest)
    | none =>
      match dropLitCI "false".data r2 with
      | some rest => some (false, rest)
      | none => none

/-- Per-section account extraction of `parse_final_update` (`main.py`
lines 586-658): at most one account per dash-separated section, via the
`account username:` field (fallback `account:`), subject to the stoplist;
an `unfollowed accounts` count marks an unfollow run and forces the
request count to zero; otherwise `follow made` and `follow requests made`
(or the loose fallback) supply the counts. -/
def sectionAccount (sec : Str) : Option (Str × FUVal) :=
  let userM :=
    match searchUser "account username:".data sec with
    | some u => some u
    | none => searchUser "account:".data sec
  match userM with
  | none => none
  | some username =>
    if fuSkip username then none
    else
      let followsM := searchCount ["no.".data, "of".data, "follow".data, "made:".data] sec
      let unfollowM :=
        searchCount ["no.".data, "of".data, "unfollowed".data, "accounts:".data] sec
      let fu : Nat × Bool :=
        match unfollowM with
        | some n => (n, true)
        | none =>
          match followsM with
          | some n => (n, false)
          | none => (0, false)
      let requests :=
        if fu.2 then 0
        else
          match searchCount
              ["no.".data, "of".data, "follow".data, "requests".data, "made:".data] sec with
          | some n => n
          | none =>
            match searchPat matchReqFallback sec with
            | some r => r.1
            | none => 0
      let blocked :=
        match searchPat matchBlocked sec with
        | some r => r.1
        | none => false
      some (username, (fu.1, requests, blocked, fu.2))

/-- Account-section loop of `parse_final_update` (`main.py` lines
586-658): fold the dash-separated sections into the account map, each
parsed section overwriting any earlier entry for its username. -/
def fuAccounts (text : Str) : List (Str × FUVal) :=
  (dashSections text).foldl
    (fun m s =>
      match sectionAccount s with
      | some uv => insertReplace m uv.1 uv.2
      | none => m)
    []

/-- Result of `parse_final_update`: device name, run date, per-account
actual state (insertion-ordered map) and error message. -/
structure FUResult where
  device_name : Str
  run_date : Str
  accounts : List (Str × FUVal)
  error_message : Option Str
  deriving Repr, DecidableEq

/-- Embedding of `parse_final_update` (`main.py` lines 547-670): hard
errors short-circuit first; then device name, run date and the
dash-separated account sections are parsed, each section overwriting any
earlier entry for the same username; a pending/popup marker becomes a soft
error, synthesizing one zeroed placeholder account when none was parsed. -/
def parse_final_update (text : Str) : FUResult :=
  let lowered := toLowerStr text
  if containsStr "force stopped".data lowered then
    ⟨"Unknown".data, [], [], some "Automation force stopped".data⟩
  else if containsStr "disconnected".data lowered then
    ⟨"Unknown".data, [], [], some "Devices disconnected".data⟩
  else
    let popup :=
      containsStr "request pending".data lowered || containsStr "popup detected".data lowered
    let device_name :=
      match searchPat matchDeviceName text with
      | some r => r.1
      | none => "Unknown".data
    let run_date := (extract_run_date text).getD []
    let accounts := fuAccounts text
    if popup then
      if accounts.isEmpty then
        let pa := (searchUser "account:".data text).getD "unknown".data
        ⟨device_name, run_date, [(pa, (0, 0, false, false))],
          some "Request pending popup detected".data⟩
      else
        ⟨device_name, run_date, accounts, some "Request pending popup detected".data⟩
    else ⟨device_name, run_date, accounts, none⟩

/-- Matcher for the schedule account pattern
`(\w+(?:\.\w+)?)\s*:\s*(Method\s*\d+|Off)(?:,\s*(\d+)\s*follows)?` at one
position; captures `(username, status text, follows)` with the status
capture preserving the original characters. -/
def matchSchedAccount (s : Str) : Option ((Str × Str × Nat) × Str) :=
  (takeWord s).bind fun uw =>
    match skipWs uw.2 with
    | ':' :: r2 =>
      let r3 := skipWs r2
      let statusM : Option (Str × Str) :=
        match dropLitCI "method".data r3 with
        | some rm =>
          let rm2 := skipWs rm
          let ds := rm2.takeWhile isDigitChar
          if ds.isEmpty then
            match dropLitCI "off".data r3 with
            | some rest => some (r3.take (r3.length - rest.length), rest)
            | none => none
          else
            let rest := rm2.dropWhile isDigitChar
            some (r3.take (r3.length - rest.length), rest)
        | none =>
          match dropLitCI "off".data r3 with
          | some rest => some (r3.take (r3.length - rest.length), rest)
          | none => none
      statusM.bind fun st =>
        let optional : Option (Nat × Str) :=
          match st.2 with
          | ',' :: rf =>
            let rf2 := skipWs rf
            let ds := rf2.takeWhile isDigitChar
            if ds.isEmpty then none
            else
              let rf3 := skipWs (rf2.dropWhile isDigitChar)
              match dropLitCI "follows".data rf3 with
              | some rfinal => some (digitsToNat ds, rfinal)
              | none => none
          | _ => none
        match optional with
        | some nf => some ((uw.1, st.1, nf.1), nf.2)
        | none => some ((uw.1, st.1, 0), st.2)
    | _ => none

/-- Embedding of `re.finditer`: repeated leftmost search, each continuing
from the end of the previous match (the fuel bounds the number of matches,
`length + 1` always suffices since every match consumes characters). -/
def finditerSched : Nat → Str → List (Str × Str × Nat)
  | 0, _ => []
  | fuel + 1, s =>
    match searchPat matchSchedAccount s with
    | none => []
    | some (a, rest) => a :: finditerSched fuel rest

/-- Account loop of `parse_schedule_for_date` (`main.py` lines 526-541):
iterate the account pattern over the selected schedule section, skipping
stoplisted usernames, inserting into the schedule map (overwrite on
repeats) and updating `method` from every status containing `method`.
Returns `(method, accounts)` with the initial method `"Method 1"`. -/
def parse_schedule_accounts (sec : Str) : Str × List (Str × (Str × Nat)) :=
  (finditerSched (sec.length + 1) sec).foldl
    (fun st a =>
      if schedSkip a.1 then st
      else
        let accounts := insertReplace st.2 a.1 (a.2.1, a.2.2)
        let method := if containsStr "method".data (toLowerStr a.2.1) then a.2.1 else st.1
        (method, accounts))
    ("Method 1".data, [])

/-- Message record as the stitching code sees it: the flattened text (the
source's `extract_message_text`, a pure flattening of embed titles,
descriptions and fields, is abstracted into the stored text) and the
`created_at` timestamp in whole seconds (`None` when absent). -/
structure MessageRec where
  text : Str
  created_at : Option Int
  deriving Repr, DecidableEq

/-- Stand-in for `datetime.min`, the sort key used for messages without a
timestamp (any value below every real timestamp works identically). -/
def tsMin : Int := -62135596800

/-- Embedding of `is_final_like_text` (`main.py` lines 203-211). -/
def is_final_like_text (t : Str) : Bool :=
  let tl := toLowerStr t
  containsStr "task final update".data tl
  || (containsStr "automation type".data tl
      && (containsStr "account username".data tl || containsStr "account:".data tl))
  || containsStr "request pending".data tl
  || containsStr "popup detected".data tl
  || (containsStr "automation type".data tl && containsStr "method 9".data tl)

/-- Embedding of the `consider` closure of `combine_final_update_messages`
(`main.py` lines 213-229): keep a message when its text is non-blank and
final-update-like, its timestamp is within the 300-second window of the
primary's (timestamps missing on either side disable the window check),
and its extracted run date does not contradict the primary's; the kept
part carries its sort key (`created_at or datetime.min`). -/
def considerMsg (pts : Option Int) (rd : Option Str) (m : MessageRec) : Option (Int × Str) :=
  if m.text.all isSpaceChar then none
  else if !is_final_like_text m.text then none
  else if (match pts, m.created_at with
           | some a, some b => decide (300 < (a - b).natAbs)
           | _, _ => false) then none
  else
    match rd, extract_run_date m.text with
    | some r, some mr =>
      if mr ≠ r then none else some (m.created_at.getD tsMin, m.text)
    | _, _ => some (m.created_at.getD tsMin, m.text)

/-- Timestamp comparison used to sort the stitched parts. -/
def partLE (a b : Int × Str) : Bool :=
  a.1 ≤ b.1

/-- Embedding of `combine_final_update_messages` (`main.py` lines
184-244).  The index loops (`consider(primary_index)`, then indices above
the primary, then indices below) become `filterMap` over the primary, the
dropped tail and the taken prefix; a single collected part returns the
primary text unchanged, otherwise the parts are sorted by timestamp
(Python `sorted` and `List.mergeSort` are both stable) and joined with a
line break.  An out-of-range index is unreachable for the source's
callers and returns the primary text. -/
def combine_final_update_messages (messages : List MessageRec) (primary_index : Option Nat)
    (primary_text : Str) : Str :=
  match primary_index with
  | none => primary_text
  | some i =>
    match messages.get? i with
    | none => primary_text
    | some primary =>
      let pts := primary.created_at
      let rd := extract_run_date primary_text
      let parts :=
        (considerMsg pts rd primary).toList
          ++ (messages.drop (i + 1)).filterMap (considerMsg pts rd)
          ++ (messages.take i).filterMap (considerMsg pts rd)
      if parts.length = 1 then primary_text
      else joinNL ((parts.mergeSort partLE).map (·.2))

/-- Embedding of `normalize_device_name` (`main.py` lines 673-680):
rewrite any name containing `phone\s*(\d+)` to `Phone <digits>`. -/
def normalize_device_name (name : Str) : Str :=
  if name.isEmpty || name = "Unknown".data then name
  else
    match searchPat
        (fun s =>
          (dropLitCI "phone".data s).bind fun r =>
            let r2 := skipWs r
            let ds := r2.takeWhile isDigitChar
            if ds.isEmpty then none else some (ds, r2.dropWhile isDigitChar))
        name with
    | some r => "Phone ".data ++ r.1
    | none => name

/-- Matcher for `phone-?(\d+)` at one position (channel-name device
number). -/
def matchPhoneDash (s : Str) : Option (Str × Str) :=
  (dropLitCI "phone".data s).bind fun r =>
    let r2 := match r with | '-' :: rr => rr | _ => r
    let ds := r2.takeWhile isDigitChar
    if ds.isEmpty then none else some (ds, r2.dropWhile isDigitChar)

/-- Expected phone number from the channel name
(`re.search(r"phone-?(\d+)", channel_name, re.IGNORECASE)`,
`main.py` line 697). -/
def phoneNumFromChannel (channel_name : Str) : Option Str :=
  (searchPat matchPhoneDash channel_name).map (·.1)

/-- First digit run of a device name (`re.search(r"(\d+)", device_name)`,
`main.py` line 748). -/
def firstDigitRun (s : Str) : Option Str :=
  let r := s.dropWhile (fun c => !isDigitChar c)
  if r.isEmpty then none else some (r.takeWhile isDigitChar)

/-- Device-name resolution block of `build_channel_data` (`main.py` lines
696-698 and 746-766), applied to the device name accumulated from the
final update / schedule parsing (always already normalized, or
`"Unknown"`): a channel-encoded phone number beats a parsed name whose
first digit run differs; otherwise the parsed name is (re-)normalized;
an unresolved name falls back to the channel-derived `Phone <N>`, and to
`"Unknown"` when the channel encodes no number. -/
def resolve_device_name (channel_name device_name : Str) : Str :=
  let expected := phoneNumFromChannel channel_name
  let dn :=
    match expected with
    | some num =>
      if device_name ≠ "Unknown".data then
        match firstDigitRun device_name with
        | some ds =>
          if ds ≠ num then "Phone ".data ++ num else normalize_device_name device_name
        | none => normalize_device_name device_name
      else device_name
    | none => device_name
  if dn = "Unknown".data then
    match expected with
    | some num => "Phone ".data ++ num
    | none => normalize_device_name dn
  else dn

/-- Decimal rendering of a count (Python f-string interpolation of an
`int`). -/
def natToStr (n : Nat) : Str :=
  (Nat.repr n).data

/-- Embedding of the source's `AccountData` dataclass. -/
structure AccountData where
  username : Str
  scheduled_follows : Nat
  scheduled_status : Str
  actual_follows : Nat
  actual_requests : Nat
  is_blocked : Bool
  is_unfollow : Bool
  deriving Repr, DecidableEq

/-- Embedding of the source's `ChannelData` dataclass. -/
structure ChannelData where
  channel_name : Str
  device_name : Str
  method : Str
  accounts : List AccountData
  has_schedule : Bool
  has_final_update : Bool
  error_message : Option Str
  deriving Repr, DecidableEq

/-- Actual total of an account as the direct formatter computes it:
`actual_follows` alone on unfollow runs, otherwise follows plus requests
(`main.py` lines 874-879). -/
def actualTotal (acc : AccountData) : Nat :=
  if acc.is_unfollow then acc.actual_follows else acc.actual_follows + acc.actual_requests

/-- Action word of the total bullet: `unfollows` on unfollow runs,
`follows` otherwise. -/
def actionWord (acc : AccountData) : Str :=
  if acc.is_unfollow then "unfollows".data else "follows".data

/-- Per-account bullet of `format_output_directly` (`main.py` lines
861-914); `none` when the account is skipped for a blank username.  The
channel's method decides the Method-9 rendering. -/
def accountBullet (method : Str) (acc : AccountData) : Option Str :=
  if acc.username.all isSpaceChar then none
  else if method = "Method 9".data then
    if acc.is_blocked then some ("   * ".data ++ acc.username ++ " – blocked".data)
    else some ("   * ".data ++ acc.username)
  else
    let total := actualTotal acc
    if total > 0 || acc.is_blocked then
      if acc.is_blocked then some ("   * ".data ++ acc.username ++ " – blocked".data)
      else if acc.scheduled_follows = 0 then
        some ("   * ".data ++ acc.username ++ " - total # of ".data ++ actionWord acc
          ++ " made: ".data ++ natToStr total)
      else if acc.scheduled_follows ≤ total then
        some ("   * ".data ++ acc.username ++ " - total # of ".data ++ actionWord acc
          ++ " made: ".data ++ natToStr total ++ " (met the daily max which is ".data
          ++ natToStr acc.scheduled_follows ++ ")".data)
      else
        some ("   * ".data ++ acc.username ++ " - total # of ".data ++ actionWord acc
          ++ " made: ".data ++ natToStr total ++ " (didn't met the daily max which is ".data
          ++ natToStr acc.scheduled_follows ++ ")".data)
    else if acc.scheduled_status = "Off".data then
      some ("   * ".data ++ acc.username ++ " – off".data)
    else if acc.scheduled_status = "Method 9".data then
      some ("   * ".data ++ acc.username)
    else if acc.scheduled_follows > 0 then
      some ("   * ".data ++ acc.username ++ " - total # of follows made: 0 ".data
        ++ "(didn't met the daily max which is ".data ++ natToStr acc.scheduled_follows
        ++ ")".data)
    else some ("   * ".data ++ acc.username ++ " - total # of follows made: 0".data)

/-- Header line of a channel in `format_output_directly` (`main.py` lines
849-858). -/
def channelHeader (ch : ChannelData) : Str :=
  match ch.error_message with
  | some msg => ch.device_name ++ " – Error: ".data ++ msg
  | none =>
    if !ch.has_final_update then
      if ch.method = "Method 9".data && !ch.accounts.isEmpty then
        ch.device_name ++ " – completed daily task (".data ++ ch.method ++ ")".data
      else ch.device_name ++ " – no daily task made".data
    else ch.device_name ++ " – completed daily task (".data ++ ch.method ++ ")".data

/-- Embedding of `format_output_directly` (`main.py` lines 844-918): a
header per channel, a bullet per account with a non-blank username, blank
lines filtered, all joined with line breaks. -/
def format_output_directly (channels : List ChannelData) : Str :=
  let lines :=
    channels.flatMap fun ch => channelHeader ch :: ch.accounts.filterMap (accountBullet ch.method)
  joinNL (lines.filter fun l => !(stripStr l).isEmpty)

/-- Status field of `format_channels_compact` (`main.py` lines 819-827). -/
def compactStatus (ch : ChannelData) : Str :=
  match ch.error_message with
  | some msg => "error:".data ++ msg.take 30
  | none =>
    if !ch.has_final_update then
      if ch.method = "Method 9".data && !ch.accounts.isEmpty then "ok:".data ++ ch.method
      else "no_task".data
    else "ok:".data ++ ch.method

/-- Per-account field of `format_channels_compact` (`main.py` lines
829-836). -/
def compactAccountPart (a : AccountData) : Str :=
  a.username ++ ":".data ++ a.scheduled_status ++ ":".data ++ natToStr a.scheduled_follows
    ++ ":".data ++ natToStr a.actual_follows ++ "+".data ++ natToStr a.actual_requests
    ++ ":".data ++ (if a.is_blocked then "y".data else "n".data)

/-- Embedding of `format_channels_compact` (`main.py` lines 809-841). -/
def format_channels_compact (channels : List ChannelData) : Str :=
  joinNL (channels.map fun ch =>
    ch.device_name ++ "|".data ++ compactStatus ch ++ "|".data
      ++ List.intercalate [','] (ch.accounts.map compactAccountPart))

/-- C3: for a channel whose method is `Method 9`, every account bullet the
direct formatter emits is either `   * <username>` or
`   * <username> – blocked` (a blank username emits nothing); no numeric
follow, unfollow or request count ever appears, regardless of the account
data. -/
theorem method9_bullets_username_or_blocked (acc : AccountData) :
    accountBullet ("Method 9".data) acc = none ∨
    accountBullet ("Method 9".data) acc = some ("   * ".data ++ acc.username) ∨
    accountBullet ("Method 9".data) acc =
      some ("   * ".data ++ acc.username ++ " – blocked".data) := by
  by_cases h1 : acc.username.all isSpaceChar
  · left
    simp [accountBullet, h1]
  · by_cases h2 : acc.is_blocked
    · right; right
      simp [accountBullet, h1, h2]
    · right; left
      simp [accountBullet, h1, h2]

/-- C4: a `force stopped` marker makes `parse_final_update` return the
error `Automation force stopped` with an empty account map; otherwise a
`disconnected` marker returns `Devices disconnected` with an empty
account map; both short-circuit before any account section is parsed
(device name and run date keep their initial values). -/
theorem parse_final_update_hard_errors (text : Str) :
    (containsStr "force stopped".data (toLowerStr text) = true →
      parse_final_update text =
        ⟨"Unknown".data, [], [], some "Automation force stopped".data⟩) ∧
    (containsStr "force stopped".data (toLowerStr text) = false →
      containsStr "disconnected".data (toLowerStr text) = true →
      parse_final_update text =
        ⟨"Unknown".data, [], [], some "Devices disconnected".data⟩) := by
  constructor
  · intro h
    simp [parse_final_update, h]
  · intro h1 h2
    simp [parse_final_update, h1, h2]

/-- Witness for C4 on concrete texts containing each hard-error marker. -/
theorem parse_final_update_hard_errors_witness :
    parse_final_update "run was Force Stopped early".data =
      ⟨"Unknown".data, [], [], some "Automation force stopped".data⟩ ∧
    parse_final_update "devices Disconnected mid-run".data =
      ⟨"Unknown".data, [], [], some "Devices disconnected".data⟩ :=
  ⟨(parse_final_update_hard_errors "run was Force Stopped early".data).1 (by decide),
   (parse_final_update_hard_errors "devices Disconnected mid-run".data).2
     (by decide) (by decide)⟩

/-- C10: with no error message and no final update located, the direct
formatter's header is `<device> – no daily task made`, except that a
`Method 9` channel with a non-empty account list gets
`<device> – completed daily task (Method 9)`; the compact status obeys the
same exception (`ok:<method>` versus `no_task`). -/
theorem no_final_update_header_and_status (ch : ChannelData)
    (he : ch.error_message = none) (hf : ch.has_final_update = false) :
    (channelHeader ch =
      if ch.method = "Method 9".data ∧ ch.accounts ≠ [] then
        ch.device_name ++ " – completed daily task (".data ++ ch.method ++ ")".data
      else ch.device_name ++ " – no daily task made".data) ∧
    (compactStatus ch =
      if ch.method = "Method 9".data ∧ ch.accounts ≠ [] then "ok:".data ++ ch.method
      else "no_task".data) := by
  constructor
  · simp only [channelHeader, he, hf]
    by_cases hm : ch.method = "Method 9".data
    · by_cases ha : ch.accounts = []
      · simp [hm, ha]
      · simp [hm, ha, List.isEmpty_iff]
    · simp [hm]
  · simp only [compactStatus, he, hf]
    by_cases hm : ch.method = "Method 9".data
    · by_cases ha : ch.accounts = []
      · simp [hm, ha]
      · simp [hm, ha, List.isEmpty_iff]
    · simp [hm]

/-- Witness for C10: a Method-9 channel with one account and a non-Method-9
channel, both with no error and no final update. -/
theorem no_final_update_header_and_status_witness :
    channelHeader
        ⟨"phone-3".data, "Phone 3".data, "Method 9".data,
          [⟨"alice".data, 0, "Method 9".data, 0, 0, false, false⟩], false, false, none⟩ =
      "Phone 3 – completed daily task (Method 9)".data ∧
    channelHeader ⟨"phone-4".data, "Phone 4".data, "Method 1".data, [], false, false, none⟩ =
      "Phone 4 – no daily task made".data ∧
    compactStatus ⟨"phone-4".data, "Phone 4".data, "Method 1".data, [], false, false, none⟩ =
      "no_task".data := by
  refine ⟨?_, ?_, ?_⟩
  · exact ((no_final_update_header_and_status _ rfl rfl).1).trans (by decide)
  · exact ((no_final_update_header_and_status
      ⟨"phone-4".data, "Phone 4".data, "Method 1".data, [], false, false, none⟩
      rfl rfl).1).trans (by decide)
  · exact ((no_final_update_header_and_status
      ⟨"phone-4".data, "Phone 4".data, "Method 1".data, [], false, false, none⟩
      rfl rfl).2).trans (by decide)

/-- C2: for a rendered account in a non-Method-9 channel, not blocked and
with a nonzero actual total (follows plus requests, or follows alone on
unfollow runs), the bullet carries the `met the daily max` suffix exactly
when the total reaches a positive scheduled figure, the `didn't met`
suffix exactly when it falls short of a positive scheduled figure, and no
suffix when the scheduled figure is zero. -/
theorem direct_bullet_daily_max_suffix (method : Str) (acc : AccountData)
    (hm : method ≠ "Method 9".data) (hb : acc.is_blocked = false)
    (hu : acc.username.all isSpaceChar = false) (ht : 0 < actualTotal acc) :
    (acc.scheduled_follows = 0 →
      accountBullet method acc =
        some ("   * ".data ++ acc.username ++ " - total # of ".data ++ actionWord acc
          ++ " made: ".data ++ natToStr (actualTotal acc))) ∧
    (0 < acc.scheduled_follows → acc.scheduled_follows ≤ actualTotal acc →
      accountBullet method acc =
        some ("   * ".data ++ acc.username ++ " - total # of ".data ++ actionWord acc
          ++ " made: ".data ++ natToStr (actualTotal acc)
          ++ " (met the daily max which is ".data ++ natToStr acc.scheduled_follows
          ++ ")".data)) ∧
    (0 < acc.scheduled_follows → actualTotal acc < acc.scheduled_follows →
      accountBullet method acc =
        some ("   * ".data ++ acc.username ++ " - total # of ".data ++ actionWord acc
          ++ " made: ".data ++ natToStr (actualTotal acc)
          ++ " (didn't met the daily max which is ".data ++ natToStr acc.scheduled_follows
          ++ ")".data)) := by
  refine ⟨fun h0 => ?_, fun hpos hge => ?_, fun hpos hlt => ?_⟩
  · simp [accountBullet, hu, hm, hb, ht, h0]
  · simp [accountBullet, hu, hm, hb, ht, hge, Nat.pos_iff_ne_zero.mp hpos]
  · simp [accountBullet, hu, hm, hb, ht, Nat.pos_iff_ne_zero.mp hpos,
      Nat.not_le.mpr hlt]

/-- Witness for C2 at the three suffix cases (scheduled 0, met, not met). -/
theorem direct_bullet_daily_max_suffix_witness :
    accountBullet "Method 1".data ⟨"ann".data, 0, "Method 1".data, 4, 3, false, false⟩ =
      some ("   * ann - total # of follows made: 7".data) ∧
    accountBullet "Method 1".data ⟨"bea".data, 50, "Method 1".data, 30, 25, false, false⟩ =
      some ("   * bea - total # of follows made: 55 (met the daily max which is 50)".data) ∧
    accountBullet "Method 1".data ⟨"cal".data, 50, "Method 1".data, 30, 2, false, false⟩ =
      some ("   * cal - total # of follows made: 32 (didn't met the daily max which is 50)".data) := by
  refine ⟨?_, ?_, ?_⟩
  · exact ((direct_bullet_daily_max_suffix "Method 1".data
      ⟨"ann".data, 0, "Method 1".data, 4, 3, false, false⟩
      (by decide) rfl (by decide) (by decide)).1 rfl).trans (by decide)
  · exact ((direct_bullet_daily_max_suffix "Method 1".data
      ⟨"bea".data, 50, "Method 1".data, 30, 25, false, false⟩
      (by decide) rfl (by decide) (by decide)).2.1 (by decide) (by decide)).trans (by decide)
  · exact ((direct_bullet_daily_max_suffix "Method 1".data
      ⟨"cal".data, 50, "Method 1".data, 30, 2, false, false⟩
      (by decide) rfl (by decide) (by decide)).2.2 (by decide) (by decide)).trans (by decide)

/-- Counterexample for C9: the token `name` is stoplisted by the
final-update parser but not by the schedule parser, so the two stoplists
are not the same set; concretely, a final-update section for account
`name` is dropped while the schedule parser captures `name`. -/
theorem stoplist_name_divergence :
    fuSkip "name".data = true ∧ schedSkip "name".data = false ∧
    (parse_final_update "Account Username: name\nNo. of Follow Made: 5".data).accounts = [] ∧
    lookupA (parse_schedule_accounts "name: Method 1, 5 follows".data).2 "name".data =
      some ("Method 1".data, 5) := by
  refine ⟨by decide, by decide, by decide, by decide⟩

/-- C9 as amended: the schedule stoplist is
`{type, method, automation, stats, device, notification}` and the
final-update stoplist additionally holds `name` — a candidate username is
skipped by the final-update parser exactly when the schedule parser would
skip it or the candidate lowercases to `name`. -/
theorem stoplists_differ_only_in_name (u : Str) :
    fuSkip u = true ↔ (schedSkip u = true ∨ toLowerStr u = "name".data) := by
  simp only [fuSkip, schedSkip, memStr, final_update_stoplist, schedule_stoplist,
    Bool.or_eq_true, decide_eq_true_eq]
  tauto

/-- C6: device-name resolution order of the reconciler.  The accumulated
`device_name` entering the block is always either `Unknown` or already
normalized (`build_channel_data` normalizes at every assignment), which
the `hnorm` hypothesis records.  A channel-encoded phone number beats a
parsed device name whose first digit run differs; otherwise the
(normalized) parsed name stands; an unresolved name falls back to the
channel-derived `Phone <N>`, and `Unknown` survives only when the channel
name encodes no number. -/
theorem device_name_resolution (cn dn : Str)
    (hnorm : normalize_device_name dn = dn) :
    (∀ num, phoneNumFromChannel cn = some num →
      (dn ≠ "Unknown".data → ∀ ds, firstDigitRun dn = some ds → ds ≠ num →
        resolve_device_name cn dn = "Phone ".data ++ num) ∧
      (dn ≠ "Unknown".data → firstDigitRun dn = some num →
        resolve_device_name cn dn = dn) ∧
      (dn ≠ "Unknown".data → firstDigitRun dn = none →
        resolve_device_name cn dn = dn) ∧
      (dn = "Unknown".data → resolve_device_name cn dn = "Phone ".data ++ num)) ∧
    (phoneNumFromChannel cn = none →
      (dn ≠ "Unknown".data → resolve_device_name cn dn = dn) ∧
      (dn = "Unknown".data → resolve_device_name cn dn = "Unknown".data)) := by
  constructor
  · intro num hnum
    refine ⟨fun hdn ds hds hne => ?_, fun hdn hds => ?_, fun hdn hds => ?_, fun hdn => ?_⟩
    · have hne2 : ("Phone ".data ++ num : Str) ≠ "Unknown".data := by
        intro he
        have := congrArg (List.take 6) he
        simp at this
      simp [resolve_device_name, hnum, hdn, hds, hne, hne2]
    · simp [resolve_device_name, hnum, hdn, hds, hnorm]
    · simp [resolve_device_name, hnum, hdn, hds, hnorm]
    · simp [resolve_device_name, hnum, hdn]
  · intro hnum
    refine ⟨fun hdn => ?_, fun hdn => ?_⟩
    · simp [resolve_device_name, hnum, hdn]
    · simp only [resolve_device_name, hnum, hdn]
      decide

/-- Witness for C6 at the four resolution outcomes. -/
theorem device_name_resolution_witness :
    resolve_device_name "phone-7".data "Phone 3".data = "Phone 7".data ∧
    resolve_device_name "phone-7".data "Phone 7".data = "Phone 7".data ∧
    resolve_device_name "phone-7".data "Unknown".data = "Phone 7".data ∧
    resolve_device_name "general".data "Tablet".data = "Tablet".data ∧
    resolve_device_name "general".data "Unknown".data = "Unknown".data := by
  refine ⟨?_, ?_, ?_, ?_, ?_⟩
  · exact ((device_name_resolution "phone-7".data "Phone 3".data (by decide)).1
      "7".data (by decide)).1 (by decide) "3".data (by decide) (by decide)
  · exact ((device_name_resolution "phone-7".data "Phone 7".data (by decide)).1
      "7".data (by decide)).2.1 (by decide) (by decide)
  · exact ((device_name_resolution "phone-7".data "Unknown".data (by decide)).1
      "7".data (by decide)).2.2.2 rfl
  · exact ((device_name_resolution "general".data "Tablet".data (by decide)).2
      (by decide)).1 (by decide)
  · exact ((device_name_resolution "general".data "Unknown".data (by decide)).2
      (by decide)).2 rfl

/-- Looking up the key just written finds the new value. -/
theorem lookupA_insertReplace_self {α} (m : List (Str × α)) (u : Str) (v : α) :
    lookupA (insertReplace m u v) u = some v := by
  induction m with
  | nil => simp [insertReplace, lookupA]
  | cons p rest ih =>
    obtain ⟨k, w⟩ := p
    by_cases h : k = u
    · simp [insertReplace, h, lookupA]
    · simp [insertReplace, h, lookupA, ih, Ne.symm h]

/-- Writing one key leaves every other key's lookup unchanged. -/
theorem lookupA_insertReplace_ne {α} (m : List (Str × α)) (u x : Str) (v : α)
    (h : x ≠ u) : lookupA (insertReplace m u v) x = lookupA m x := by
  induction m with
  | nil => simp [insertReplace, lookupA, h]
  | cons p rest ih =>
    obtain ⟨k, w⟩ := p
    by_cases hk : k = u
    · subst hk
      simp [insertReplace, lookupA, h]
    · by_cases hx : x = k
      · simp [insertReplace, hk, lookupA, hx]
      · simp [insertReplace, hk, lookupA, hx, ih]

/-- Folding entries into the map with overwrite semantics: a key's final
value is the one of the last entry carrying that key, and absent that the
starting map decides. -/
theorem lookupA_foldl_insertReplace {α} (l : List (Str × α)) (m0 : List (Str × α))
    (u : Str) :
    lookupA (l.foldl (fun m p => insertReplace m p.1 p.2) m0) u =
      (match (l.filter fun p => decide (p.1 = u)).getLast? with
       | some q => some q.2
       | none => lookupA m0 u) := by
  induction l generalizing m0 with
  | nil => simp
  | cons p rest ih =>
    simp only [List.foldl_cons, List.filter_cons]
    by_cases hp : p.1 = u
    · rw [ih]
      cases hfr : (rest.filter fun q => decide (q.1 = u)).getLast? with
      | some q => simp [hp, List.getLast?_cons, hfr]
      | none =>
        have hemp : (rest.filter fun q => decide (q.1 = u)) = [] :=
          List.getLast?_eq_none_iff.mp hfr
        rw [hemp]
        simp [hp, lookupA_insertReplace_self]
    · rw [ih]
      have hx : u ≠ p.1 := fun he => hp he.symm
      cases hfr : (rest.filter fun q => decide (q.1 = u)).getLast? with
      | some q => simp [hp, hfr]
      | none => simp [hp, hfr, lookupA_insertReplace_ne _ _ _ _ hx]

/-- The section fold of `parse_final_update` equals an `insertReplace`
fold over the successfully parsed sections. -/
theorem fuAccounts_eq_foldl (text : Str) :
    fuAccounts text =
      ((dashSections text).filterMap sectionAccount).foldl
        (fun m p => insertReplace m p.1 p.2) [] := by
  unfold fuAccounts
  generalize dashSections text = l
  generalize ([] : List (Str × FUVal)) = m0
  induction l generalizing m0 with
  | nil => rfl
  | cons s rest ih =>
    cases h : sectionAccount s <;> simp [List.filterMap_cons, h, ih]

/-- A successful lookup needs a non-empty map. -/
theorem lookupA_ne_nil {α} {m : List (Str × α)} {u : Str} {v : α}
    (h : lookupA m u = some v) : m.isEmpty = false := by
  cases m with
  | nil => simp [lookupA] at h
  | cons p rest => rfl

/-- C1: overwrite law of `parse_final_update`.  When the same username is
captured by more than one dash-separated section of a (non-hard-error)
final-update text, the resulting account map holds exactly the follows,
requests, blocked and unfollow values of the last such section in text
order — earlier sections are fully replaced, never summed. -/
theorem final_update_last_section_wins (text u : Str) (p : Str × FUVal)
    (hfs : containsStr "force stopped".data (toLowerStr text) = false)
    (hdc : containsStr "disconnected".data (toLowerStr text) = false)
    (hrep : 2 ≤ (((dashSections text).filterMap sectionAccount).filter
        (fun q => decide (q.1 = u))).length)
    (hlast : (((dashSections text).filterMap sectionAccount).filter
        (fun q => decide (q.1 = u))).getLast? = some p) :
    lookupA (parse_final_update text).accounts u = some p.2 := by
  have hacc : lookupA (fuAccounts text) u = some p.2 := by
    rw [fuAccounts_eq_foldl, lookupA_foldl_insertReplace, hlast]
  have hne : (fuAccounts text).isEmpty = false := lookupA_ne_nil hacc
  simp only [parse_final_update, hfs, hdc, Bool.false_eq_true, if_false]
  by_cases hp : (containsStr "request pending".data (toLowerStr text)
      || containsStr "popup detected".data (toLowerStr text)) = true
  · simp [hp, hne, hacc]
  · simp only [Bool.not_eq_true] at hp
    simp [hp, hacc]

/-- Witness for C1: two sections for `alice`; the map holds the second
section's values (30 follows, 5 requests), not a sum. -/
theorem final_update_last_section_wins_witness :
    lookupA (parse_final_update ("Task Final Update\nAccount Username: alice\nNo. of Follow Made: 10\nNo. of Follow Requests Made: 2\n-----\nAccount Username: alice\nNo. of Follow Made: 30\nNo. of Follow Requests Made: 5".data)).accounts "alice".data =
      some (30, 5, false, false) :=
  final_update_last_section_wins _ _ ("alice".data, (30, 5, false, false))
    (by decide) (by decide) (by decide) (by decide)

/-- Numeric bounds of a digit character. -/
theorem digit_bounds {c : Char} (h : isDigitChar c = true) :
    48 ≤ c.toNat ∧ c.toNat ≤ 57 := by
  simp only [isDigitChar, Bool.and_eq_true, decide_eq_true_eq] at h
  obtain ⟨h1, h2⟩ := h
  rw [Char.le_def, UInt32.le_def, BitVec.le_def] at h1 h2
  exact ⟨h1, h2⟩

/-- Lowercasing does not change a digit. -/
theorem toLower_of_digit {c : Char} (h : isDigitChar c = true) : Char.toLower c = c := by
  obtain ⟨h1, h2⟩ := digit_bounds h
  unfold Char.toLower
  rw [if_neg]
  omega

/-- A digit is not whitespace. -/
theorem not_space_of_digit {c : Char} (h : isDigitChar c = true) :
    isSpaceChar c = false := by
  obtain ⟨h1, h2⟩ := digit_bounds h
  simp only [isSpaceChar, Bool.or_eq_false_iff, decide_eq_false_iff_not]
  refine ⟨⟨⟨⟨⟨?_, ?_⟩, ?_⟩, ?_⟩, ?_⟩, ?_⟩ <;> intro he <;> subst he <;> simp_all

/-- Trailing-whitespace removal keeps a non-whitespace head. -/
theorem dropTrailingWs_cons {c : Char} {cs : Str} (h : isSpaceChar c = false) :
    dropTrailingWs (c :: cs) = c :: dropTrailingWs cs := by
  conv_lhs => rw [dropTrailingWs]
  cases hr : dropTrailingWs cs with
  | nil => simp [h]
  | cons x xs => simp

/-- A list headed by a digit differs from any string whose head is not a
digit. -/
theorem digit_head_ne {a : Char} {t : Str} (ha : isDigitChar a = true) (s : Str)
    (hs : s.head?.all (fun c => !isDigitChar c) = true) : a :: t ≠ s := by
  intro he
  rw [← he] at hs
  simp [ha] at hs

/-- Lookup misses every table whose keys all start with non-digits when
the query starts with a digit. -/
theorem lookupA_none_of_digit_head {α} (l : List (Str × α)) {a : Char} {t : Str}
    (ha : isDigitChar a = true)
    (hl : l.all (fun p => p.1.head?.all (fun c => !isDigitChar c)) = true) :
    lookupA l (a :: t) = none := by
  induction l with
  | nil => rfl
  | cons p rest ih =>
    simp only [List.all_cons, Bool.and_eq_true] at hl
    obtain ⟨k, v⟩ := p
    simp only [lookupA]
    rw [if_neg (digit_head_ne ha k hl.1)]
    exact ih hl.2

/-- The month-day pattern `(\w+)\s+(\d{1,2})` cannot match a string whose
first five characters are four digits and a dash (there is no whitespace
after the leading word run). -/
theorem matchMonthDay_none_of_iso_shape {a b c d : Char} {t2 : Str}
    (ha : isDigitChar a = true) (hb : isDigitChar b = true)
    (hc : isDigitChar c = true) (hd : isDigitChar d = true) :
    matchMonthDayTok (a :: b :: c :: d :: '-' :: t2) = none := by
  have hwa : isWordChar a = true := by simp [isWordChar, ha]
  have hwb : isWordChar b = true := by simp [isWordChar, hb]
  have hwc : isWordChar c = true := by simp [isWordChar, hc]
  have hwd : isWordChar d = true := by simp [isWordChar, hd]
  have hdash : isWordChar '-' = false := by decide
  have hdash2 : isSpaceChar '-' = false := by decide
  simp [matchMonthDayTok, List.takeWhile_cons, List.dropWhile_cons, hwa, hwb, hwc, hwd,
    hdash, hdash2]

/-- Lowering and stripping keep the five-character ISO prefix in place. -/
theorem strip_lower_iso_shape {a b c d : Char} {rest : Str}
    (ha : isDigitChar a = true) (hb : isDigitChar b = true)
    (hc : isDigitChar c = true) (hd : isDigitChar d = true) :
    stripStr (toLowerStr (a :: b :: c :: d :: '-' :: rest)) =
      a :: b :: c :: d :: '-' :: dropTrailingWs (toLowerStr rest) := by
  have hlow : toLowerStr (a :: b :: c :: d :: '-' :: rest) =
      a :: b :: c :: d :: '-' :: toLowerStr rest := by
    simp [toLowerStr, toLower_of_digit ha, toLower_of_digit hb, toLower_of_digit hc,
      toLower_of_digit hd]
  rw [hlow]
  unfold stripStr
  rw [List.dropWhile_cons_of_neg (by simp [not_space_of_digit ha])]
  rw [dropTrailingWs_cons (not_space_of_digit ha), dropTrailingWs_cons (not_space_of_digit hb),
    dropTrailingWs_cons (not_space_of_digit hc), dropTrailingWs_cons (not_space_of_digit hd),
    dropTrailingWs_cons (by decide : isSpaceChar '-' = false)]

/-- Every result of the shared month/day resolution is a formatted
ordinal or a failure. -/
theorem monthDayResolve_shape (today m d : Int) :
    monthDayResolve today m d = none ∨
    ∃ o : Int, monthDayResolve today m d = some (formatOrdinal o) := by
  unfold monthDayResolve
  dsimp only
  split_ifs with h1 h2 h3
  · right; exact ⟨toOrdinal ((fromOrdinal today).1 - 1) m d, rfl⟩
  · left; rfl
  · right; exact ⟨toOrdinal (fromOrdinal today).1 m d, rfl⟩
  · left; rfl

/-- Every result of the ISO/short tail is a failure or a formatted ordinal
once the ISO pass-through is excluded. -/
theorem isoShortBranch_shape (today : Int) (s : Str) (h : isoPrefixMatch s = false) :
    isoShortBranch today s = none ∨
    ∃ o : Int, isoShortBranch today s = some (formatOrdinal o) := by
  unfold isoShortBranch
  rw [if_neg (by simp [h])]
  cases hm : shortPrefixMatch s with
  | none => left; rfl
  | some md => exact monthDayResolve_shape today md.1 md.2

/-- Counterexample for C8: the token `2025-13-45` names an invalid
calendar date (month 13), yet the resolver echoes it back unchanged
instead of failing — the ISO branch validates only the digit format. -/
theorem iso_invalid_date_echoed :
    parse_day_argument (toOrdinal 2025 12 2) "2025-13-45".data =
      some ("2025-13-45".data) ∧
    validDate 2025 13 45 = false := by
  exact ⟨by decide, by decide⟩

/-- C8 as amended: a token matching the ISO digit format
`\d{4}-\d{1,2}-\d{1,2}` is passed through verbatim after format-only
validation (calendar validity is not checked); every other token either
fails or resolves to a formatted computed date — only the month-name and
numeric month/day branches reject invalid calendar dates, and an
unrecognized token fails. -/
theorem date_resolver_iso_passthrough (today : Int) (tok : Str) :
    (isoPrefixMatch tok = true → parse_day_argument today tok = some tok) ∧
    (isoPrefixMatch tok = false →
      parse_day_argument today tok = none ∨
      ∃ o : Int, parse_day_argument today tok = some (formatOrdinal o)) := by
  constructor
  · intro hiso
    match tok, hiso with
    | a :: b :: c :: d :: e :: rest, hiso =>
      simp only [isoPrefixMatch, Bool.and_eq_true, decide_eq_true_eq] at hiso
      obtain ⟨⟨⟨⟨⟨ha, hb⟩, hc⟩, hd⟩, he⟩, htail⟩ := hiso
      subst he
      unfold parse_day_argument
      rw [strip_lower_iso_shape ha hb hc hd]
      unfold parseDayCore
      rw [if_neg (digit_head_ne ha "today".data (by decide)),
        if_neg (digit_head_ne ha "yesterday".data (by decide)),
        lookupA_none_of_digit_head day_names ha (by decide),
        matchMonthDay_none_of_iso_shape ha hb hc hd]
      simp only [isoShortBranch]
      rw [if_pos]
      simp only [isoPrefixMatch, Bool.and_eq_true, decide_eq_true_eq]
      exact ⟨⟨⟨⟨⟨ha, hb⟩, hc⟩, hd⟩, trivial⟩, htail⟩
  · intro hiso
    unfold parse_day_argument parseDayCore
    by_cases h1 : stripStr (toLowerStr tok) = "today".data
    · rw [if_pos h1]
      exact Or.inr ⟨today, rfl⟩
    · rw [if_neg h1]
      by_cases h2 : stripStr (toLowerStr tok) = "yesterday".data
      · rw [if_pos h2]
        exact Or.inr ⟨today - 1, rfl⟩
      · rw [if_neg h2]
        cases h3 : lookupA day_names (stripStr (toLowerStr tok)) with
        | some target =>
          exact Or.inr ⟨weekdayResolve today target, rfl⟩
        | none =>
          dsimp only
          cases h4 : matchMonthDayTok (stripStr (toLowerStr tok)) with
          | some md =>
            dsimp only
            cases h5 : lookupA month_names md.1 with
            | some m =>
              dsimp only
              exact monthDayResolve_shape today m md.2
            | none =>
              dsimp only
              exact isoShortBranch_shape today tok hiso
          | none =>
            dsimp only
            exact isoShortBranch_shape today tok hiso

/-- Witness for C8's amended claim: an ISO-format token is echoed, a
non-ISO gibberish token fails. -/
theorem date_resolver_iso_passthrough_witness :
    parse_day_argument (toOrdinal 2025 12 2) "2025-12-02".data =
      some ("2025-12-02".data) ∧
    (parse_day_argument (toOrdinal 2025 12 2) "gibberish".data = none ∨
      ∃ o : Int, parse_day_argument (toOrdinal 2025 12 2) "gibberish".data =
        some (formatOrdinal o)) :=
  ⟨(date_resolver_iso_passthrough (toOrdinal 2025 12 2) "2025-12-02".data).1 (by decide),
   (date_resolver_iso_passthrough (toOrdinal 2025 12 2) "gibberish".data).2 (by decide)⟩

/-- A successful lookup returns one of the table's values. -/
theorem lookupA_mem_values {α} {l : List (Str × α)} {x : Str} {v : α}
    (h : lookupA l x = some v) : v ∈ l.map Prod.snd := by
  induction l with
  | nil => exact Option.noConfusion h
  | cons p rest ih =>
    obtain ⟨k, w⟩ := p
    simp only [lookupA] at h
    by_cases hx : x = k
    · rw [if_pos hx] at h
      injection h with h
      rw [← h]
      exact List.mem_cons_self _ _
    · rw [if_neg hx] at h
      exact List.mem_cons_of_mem _ (ih h)

/-- Division facts feeding the weekday arithmetic to `omega`. -/
theorem emod7_facts (a : Int) :
    0 ≤ a.emod 7 ∧ a.emod 7 < 7 ∧ 7 * (a.ediv 7) + a.emod 7 = a :=
  ⟨Int.emod_nonneg a (by norm_num), Int.emod_lt_of_pos a (by norm_num),
   Int.ediv_add_emod a 7⟩

/-- Arithmetic core of the weekday branch: the resolved day lies strictly
before today, has the requested weekday, nothing strictly between them has
that weekday, and a same-weekday today steps back a full week. -/
theorem weekdayResolve_spec (today : Int) (target : Nat) (htar : target < 7) :
    weekdayResolve today target < today ∧
    pyWeekday (weekdayResolve today target) = (target : Int) ∧
    (∀ e : Int, weekdayResolve today target < e → e < today →
      pyWeekday e ≠ (target : Int)) ∧
    (pyWeekday today = (target : Int) → weekdayResolve today target = today - 7) := by
  unfold weekdayResolve pyWeekday
  dsimp only
  obtain ⟨a1, a2, a3⟩ := emod7_facts (today + 6)
  obtain ⟨b1, b2, b3⟩ := emod7_facts ((today + 6).emod 7 - (target : Int))
  split_ifs with hz
  · refine ⟨by omega, ?_, ?_, by omega⟩
    · obtain ⟨c1, c2, c3⟩ := emod7_facts (today - 7 + 6)
      omega
    · intro e he1 he2
      obtain ⟨c1, c2, c3⟩ := emod7_facts (e + 6)
      omega
  · refine ⟨by omega, ?_, ?_, by omega⟩
    · obtain ⟨c1, c2, c3⟩ :=
        emod7_facts (today - ((today + 6).emod 7 - (target : Int)).emod 7 + 6)
      omega
    · intro e he1 he2
      obtain ⟨c1, c2, c3⟩ := emod7_facts (e + 6)
      omega

/-- C7: for every weekday token of the resolver's table and every current
date, the resolver returns the most recent occurrence of that weekday
strictly before today — a date less than today, of the requested weekday,
with no later such date before today — and when today itself falls on the
requested weekday the result is exactly seven days earlier. -/
theorem weekday_resolver_strictly_before (today : Int) (tok : Str) (target : Nat)
    (h : lookupA day_names (stripStr (toLowerStr tok)) = some target) :
    ∃ d : Int, parse_day_argument today tok = some (formatOrdinal d) ∧
      d < today ∧ pyWeekday d = (target : Int) ∧
      (∀ e : Int, d < e → e < today → pyWeekday e ≠ (target : Int)) ∧
      (pyWeekday today = (target : Int) → d = today - 7) := by
  have htar : target < 7 := by
    have hmem := lookupA_mem_values h
    have hall : ∀ v ∈ day_names.map Prod.snd, v < 7 := by decide
    exact hall _ hmem
  have h1 : stripStr (toLowerStr tok) ≠ "today".data := by
    intro he
    rw [he] at h
    have hn : lookupA day_names ("today".data) = none := by decide
    rw [hn] at h
    exact Option.noConfusion h
  have h2 : stripStr (toLowerStr tok) ≠ "yesterday".data := by
    intro he
    rw [he] at h
    have hn : lookupA day_names ("yesterday".data) = none := by decide
    rw [hn] at h
    exact Option.noConfusion h
  obtain ⟨s1, s2, s3, s4⟩ := weekdayResolve_spec today target htar
  refine ⟨weekdayResolve today target, ?_, s1, s2, s3, s4⟩
  unfold parse_day_argument parseDayCore
  rw [if_neg h1, if_neg h2, h]

/-- Witness for C7: 2025-12-01 is a Monday; resolving `monday` on that day
steps a full week back. -/
theorem weekday_resolver_strictly_before_witness :
    ∃ d : Int, parse_day_argument (toOrdinal 2025 12 1) "monday".data =
        some (formatOrdinal d) ∧ d < toOrdinal 2025 12 1 ∧
      pyWeekday d = ((0 : Nat) : Int) ∧
      (∀ e : Int, d < e → e < toOrdinal 2025 12 1 → pyWeekday e ≠ ((0 : Nat) : Int)) ∧
      (pyWeekday (toOrdinal 2025 12 1) = ((0 : Nat) : Int) → d = toOrdinal 2025 12 1 - 7) :=
  weekday_resolver_strictly_before (toOrdinal 2025 12 1) "monday".data 0 (by decide)

/-- Keep-condition of the stitcher, the `consider` filter read as a
predicate: non-blank final-update-like text, timestamp within 300 seconds
of the primary's (when both timestamps exist), and run date not
contradicting the primary's (when both dates exist). -/
def keepMsg (pts : Option Int) (rd : Option Str) (m : MessageRec) : Bool :=
  !m.text.all isSpaceChar && is_final_like_text m.text &&
  !(match pts, m.created_at with
    | some a, some b => decide (300 < (a - b).natAbs)
    | _, _ => false) &&
  (match rd, extract_run_date m.text with
   | some r, some mr => !decide (mr ≠ r)
   | _, _ => true)

/-- Sort key and text of a kept part. -/
def partPair (m : MessageRec) : Int × Str :=
  (m.created_at.getD tsMin, m.text)

/-- The `consider` closure keeps exactly the messages satisfying
`keepMsg`, pairing them with their sort key. -/
theorem considerMsg_eq_keep (pts : Option Int) (rd : Option Str) (m : MessageRec) :
    considerMsg pts rd m = if keepMsg pts rd m then some (partPair m) else none := by
  unfold considerMsg keepMsg partPair
  by_cases h1 : m.text.all isSpaceChar
  · simp [h1]
  · by_cases h2 : is_final_like_text m.text
    · rcases pts with _ | a
      · rcases rd with _ | r
        · simp [h1, h2]
        · rcases hd : extract_run_date m.text with _ | mr
          · simp [h1, h2, hd]
          · by_cases h3 : mr = r <;> simp [h1, h2, hd, h3]
      · rcases hc : m.created_at with _ | b
        · rcases rd with _ | r
          · simp [h1, h2, hc]
          · rcases hd : extract_run_date m.text with _ | mr
            · simp [h1, h2, hc, hd]
            · by_cases h3 : mr = r <;> simp [h1, h2, hc, hd, h3]
        · by_cases hw : 300 < (a - b).natAbs
          · simp [h1, h2, hc, hw]
          · rcases rd with _ | r
            · simp [h1, h2, hc, hw]
            · rcases hd : extract_run_date m.text with _ | mr
              · simp [h1, h2, hc, hd, hw]
              · by_cases h3 : mr = r <;> simp [h1, h2, hc, hd, hw, h3]
    · simp [h1, h2]

/-- `filterMap` with `consider` is `filter` with the keep-condition
followed by pairing. -/
theorem filterMap_considerMsg (pts : Option Int) (rd : Option Str) (l : List MessageRec) :
    l.filterMap (considerMsg pts rd) = (l.filter (keepMsg pts rd)).map partPair := by
  induction l with
  | nil => rfl
  | cons m rest ih =>
    rw [List.filterMap_cons, List.filter_cons, considerMsg_eq_keep]
    cases h : keepMsg pts rd m <;> simp [h, ih]

/-- Sorting by timestamp is permutation-invariant when the keys are
distinct: any two permuted part lists merge-sort to the same list. -/
theorem mergeSort_eq_of_perm_of_nodup_keys {l1 l2 : List (Int × Str)}
    (hp : l1.Perm l2) (hnd : (l2.map Prod.fst).Nodup) :
    l1.mergeSort partLE = l2.mergeSort partLE := by
  have htrans : ∀ a b c : Int × Str, partLE a b → partLE b c → partLE a c := by
    intro a b c hab hbc
    simp only [partLE, decide_eq_true_eq] at hab hbc ⊢
    omega
  have htotal : ∀ a b : Int × Str, partLE a b || partLE b a := by
    intro a b
    simp only [partLE, Bool.or_eq_true, decide_eq_true_eq]
    omega
  have hs1 := List.sorted_mergeSort htrans htotal l1
  have hs2 := List.sorted_mergeSort htrans htotal l2
  have hperm : (l1.mergeSort partLE).Perm (l2.mergeSort partLE) :=
    ((List.mergeSort_perm l1 partLE).trans hp).trans (List.mergeSort_perm l2 partLE).symm
  have hnd2 : ((l2.mergeSort partLE).map Prod.fst).Nodup := by
    have hpm : ((l2.mergeSort partLE).map Prod.fst).Perm (l2.map Prod.fst) :=
      (List.mergeSort_perm l2 partLE).map Prod.fst
    exact hpm.nodup_iff.mpr hnd
  have hnd1 : ((l1.mergeSort partLE).map Prod.fst).Nodup := by
    have hpm : ((l1.mergeSort partLE).map Prod.fst).Perm ((l2.mergeSort partLE).map Prod.fst) :=
      hperm.map Prod.fst
    exact hpm.nodup_iff.mpr hnd2
  have strict : ∀ (l : List (Int × Str)), l.Pairwise (fun a b => partLE a b = true) →
      (l.map Prod.fst).Nodup → l.Pairwise (fun a b : Int × Str => a.1 < b.1) := by
    intro l hle hnod
    have hne : l.Pairwise (fun a b : Int × Str => a.1 ≠ b.1) := List.pairwise_map.mp hnod
    exact (hle.and hne).imp (fun hab => by
      obtain ⟨hle2, hne2⟩ := hab
      simp only [partLE, decide_eq_true_eq] at hle2
      omega)
  haveI : IsAntisymm (Int × Str) (fun a b : Int × Str => a.1 < b.1) :=
    ⟨fun a b h1 h2 => absurd (lt_trans h1 h2) (lt_irrefl _)⟩
  exact List.eq_of_perm_of_sorted hperm (strict _ hs1 hnd1) (strict _ hs2 hnd2)

/-- C5: the stitcher combines exactly the messages satisfying the
keep-condition — final-update-like, within 300 seconds of the primary's
timestamp, run date agreeing with the primary's when both are present.
The kept parts, in any traversal order, are sorted by timestamp ascending
and joined with a line break; when exactly one part is kept the original
primary text is returned unchanged.  Distinct timestamps make the sorted
order unique. -/
theorem stitching_combines_window_parts (messages : List MessageRec) (i : Nat)
    (prim : MessageRec) (hget : messages.get? i = some prim)
    (hnd : (messages.map fun m => m.created_at.getD tsMin).Nodup) :
    combine_final_update_messages messages (some i) prim.text =
      if (messages.filter
            (keepMsg prim.created_at (extract_run_date prim.text))).length = 1
      then prim.text
      else
        joinNL
          ((((messages.filter (keepMsg prim.created_at (extract_run_date prim.text))).map
              partPair).mergeSort partLE).map (·.2)) := by
  have hlt : i < messages.length := by
    by_contra hl
    push_neg at hl
    rw [List.get?_eq_none.mpr hl] at hget
    exact Option.noConfusion hget
  have hsplit : messages = messages.take i ++ prim :: messages.drop (i + 1) := by
    have hel : messages[i] = prim := by
      have h2 := hget
      rw [List.get?_eq_getElem?, List.getElem?_eq_getElem hlt] at h2
      exact Option.some.inj h2
    conv_lhs => rw [← List.take_append_drop i messages]
    rw [List.drop_eq_getElem_cons hlt, hel]
  set pts := prim.created_at with hpts
  set rd := extract_run_date prim.text with hrd
  set kp := messages.filter (keepMsg pts rd) with hkp
  have hparts :
      (considerMsg pts rd prim).toList
        ++ (messages.drop (i + 1)).filterMap (considerMsg pts rd)
        ++ (messages.take i).filterMap (considerMsg pts rd)
      = ((prim :: (messages.drop (i + 1) ++ messages.take i)).filter (keepMsg pts rd)).map
          partPair := by
    rw [← filterMap_considerMsg]
    rw [List.filterMap_cons, List.filterMap_append]
    cases h : considerMsg pts rd prim <;> simp [h]
  have hpermL : (prim :: (messages.drop (i + 1) ++ messages.take i)).Perm messages := by
    have p1 : (messages.drop (i + 1) ++ messages.take i).Perm
        (messages.take i ++ messages.drop (i + 1)) := List.perm_append_comm
    have p2 : (prim :: (messages.take i ++ messages.drop (i + 1))).Perm
        (messages.take i ++ prim :: messages.drop (i + 1)) := List.perm_middle.symm
    have p3 := (List.Perm.cons prim p1).trans p2
    rw [← hsplit] at p3
    exact p3
  have hpermF : ((prim :: (messages.drop (i + 1) ++ messages.take i)).filter
      (keepMsg pts rd)).Perm kp := hpermL.filter (keepMsg pts rd)
  have hknd : ((kp.map partPair).map Prod.fst).Nodup := by
    rw [List.map_map]
    have hfp : (Prod.fst ∘ partPair) = (fun m : MessageRec => m.created_at.getD tsMin) := rfl
    rw [hfp]
    have hsub : (kp.map fun m : MessageRec => m.created_at.getD tsMin).Sublist
        (messages.map fun m : MessageRec => m.created_at.getD tsMin) :=
      (List.filter_sublist messages).map _
    exact List.Nodup.sublist hsub hnd
  unfold combine_final_update_messages
  dsimp only
  rw [hget]
  dsimp only
  rw [hparts]
  rw [mergeSort_eq_of_perm_of_nodup_keys (hpermF.map partPair) hknd]
  rw [List.length_map, hpermF.length_eq]

unseal List.merge List.mergeSort in
/-- Witness for C5: two final-update-like parts 120 seconds apart combine
in timestamp order, while a third otherwise-matching message 600 seconds
away is left out. -/
theorem stitching_combines_window_parts_witness :
    combine_final_update_messages
        [⟨"Task Final Update\nStart Time: 2025-12-02 08:00\nAccount Username: alice".data,
            some 1120⟩,
         ⟨"Automation Type: Standard\nAccount Username: alice\nNo. of Follow Made: 3".data,
            some 1000⟩,
         ⟨"Task Final Update\nStart Time: 2025-12-02 09:00".data, some 1720⟩]
        (some 0)
        ("Task Final Update\nStart Time: 2025-12-02 08:00\nAccount Username: alice".data) =
      "Automation Type: Standard\nAccount Username: alice\nNo. of Follow Made: 3\nTask Final Update\nStart Time: 2025-12-02 08:00\nAccount Username: alice".data :=
  (stitching_combines_window_parts
    [⟨"Task Final Update\nStart Time: 2025-12-02 08:00\nAccount Username: alice".data,
        some 1120⟩,
     ⟨"Automation Type: Standard\nAccount Username: alice\nNo. of Follow Made: 3".data,
        some 1000⟩,
     ⟨"Task Final Update\nStart Time: 2025-12-02 09:00".data, some 1720⟩]
    0
    ⟨"Task Final Update\nStart Time: 2025-12-02 08:00\nAccount Username: alice".data,
      some 1120⟩
    rfl (by decide)).trans (by decide)
